import Mathlib

/-!
# tidy-mailbox: the spam-deletion command line tool

A shallow embedding of `main.go`.  The program talks to three things outside
itself: the file system, the OAuth2 / JSON libraries and the mail provider.
Each of them appears here as explicit state (`World`) or as a deterministic
oracle (`Env`, `Service`), so every function of `main.go` becomes a total,
executable function that passes the world along and records each outside call
in a trace.
-/

namespace TidyMailbox

/-! ## Values -/

/-- A Go `error` value that is not nil, represented by its message. -/
abbrev GoError := String

deriving instance DecidableEq for Except

/-- A Go slice: `nil` is the nil slice, `mk xs` an allocated slice holding `xs`
(`mk []` is the empty slice written `[]string{}`). -/
inductive Slice (α : Type) where
  | nil : Slice α
  | mk (xs : List α) : Slice α
  deriving DecidableEq, Repr

/-- The elements a `range` loop over the slice visits, in order. -/
def Slice.elems {α : Type} : Slice α → List α
  | Slice.nil => []
  | Slice.mk xs => xs

/-- Go `append(s, x)`: the result is always an allocated slice. -/
def Slice.append {α : Type} (s : Slice α) (x : α) : Slice α :=
  Slice.mk (s.elems ++ [x])

/-- Go `s == nil`. -/
def Slice.isNil {α : Type} : Slice α → Bool
  | Slice.nil => true
  | Slice.mk _ => false

/-- The fields of `gmail.Message` the program and the mail service look at. -/
structure Message where
  id : String
  labelIds : List String
  deriving DecidableEq, Repr

/-- The `gmail.ListMessagesResponse` of one list request: one page of messages
and the token of the next page (empty when there is none). -/
structure ListMessagesResponse where
  messages : Slice Message
  nextPageToken : String
  deriving DecidableEq, Repr

/-- The `gmail.BatchDeleteMessagesRequest` body. -/
structure BatchDeleteMessagesRequest where
  ids : Slice String
  deriving DecidableEq, Repr

/-- A Go `string`: a sequence of bytes, which need not be valid UTF-8. -/
abbrev GoString := List UInt8

/-- The Go string holding an ASCII text. -/
def ascii (text : String) : GoString :=
  text.toList.map (fun c => c.toNat.toUInt8)

/-- The fields of `oauth2.Token`; the expiry is an instant, in seconds since the
Unix epoch. -/
structure Token where
  accessToken : GoString
  tokenType : GoString
  refreshToken : GoString
  expiry : Int
  deriving DecidableEq, Repr

/-- The zero value `oauth2.Token{}`: empty strings and the zero `time.Time`,
midnight of 1 January of year 1. -/
def Token.zero : Token :=
  { accessToken := [], tokenType := [], refreshToken := [], expiry := -62135596800 }

/-- An `oauth2.Config`, as produced by `google.ConfigFromJSON` from the bytes of
the credentials file and a scope. -/
structure Config where
  credentials : String
  scope : String
  deriving DecidableEq, Repr

/-- The `http.Client` that `config.Client(ctx, tok)` builds: it is determined by
the configuration and the token (a pointer, `none` when nil) it was built
from. -/
structure HttpClient where
  config : Config
  token : Option Token
  deriving DecidableEq, Repr

/-- How a function that may call `log.Fatalf` or `os.Exit` ends: it returns a
value, or the process exits with a status code. -/
inductive Run (α : Type) where
  | ret (a : α) : Run α
  | exit (code : Nat) : Run α
  deriving DecidableEq, Repr

/-! ## Outside calls -/

/-- One call that leaves the program, in the order the calls are made. -/
inductive Event where
  | flagParse (args : List String)
  | readFile (path : String)
  | configFromJSON (bytes : String) (scope : String)
  | openRead (path : String)
  | jsonDecode (bytes : String)
  | print (text : String)
  | openWrite (path : String)
  | jsonEncode (tok : Token)
  | write (path : String) (bytes : String)
  | scan
  | exchange (code : String)
  | configClient (tok : Option Token)
  | newService (client : Option HttpClient)
  | list (user : String) (query : String)
  | batchDelete (user : String) (req : BatchDeleteMessagesRequest)
  | fatal (msg : String)
  deriving DecidableEq, Repr

/-- The file store: the content of each file, `none` where there is no file and
`os.Open` and `os.ReadFile` fail.  The files are regular files: what a completed
write leaves in a file is what a later read of it finds. -/
abbrev FS := String → Option String

/-- Replace the content of one file. -/
def FS.set (fs : FS) (path : String) (bytes : String) : FS :=
  fun p => if p = path then some bytes else fs p

/-- Everything outside the program that it can change or be observed changing:
the files, the mailbox held by the mail service, and the calls made so far. -/
structure World (σ : Type) where
  fs : FS
  mailbox : σ
  trace : List Event

/-- Record one more outside call. -/
def World.log {σ : Type} (w : World σ) (e : Event) : World σ :=
  { w with trace := w.trace ++ [e] }

/-- The mail service behind `srv.Users.Messages`: how it answers one list
request (a read, the mailbox is not changed by it) and one batch-delete
request. -/
structure Service (σ : Type) where
  list : σ → String → String → Except GoError ListMessagesResponse
  batchDelete : σ → String → BatchDeleteMessagesRequest → σ × Option GoError

/-! ## deleteSpam -/

/-- The loop `for _, s := range spam.Messages { ids = append(ids, s.Id) }`. -/
def collectIds (messages : Slice Message) (ids : Slice String) : Slice String :=
  messages.elems.foldl (fun acc s => acc.append s.id) ids

/-- The body of `deleteSpam`: one list request and, when it succeeds, one batch
delete of the identifiers collected from its response.  The result is the
returned `error` (`none` for nil). -/
def deleteSpam {σ : Type} (srv : Service σ) (w : World σ) : Option GoError × World σ :=
  let user := "me"
  let query := "label:Spam"
  let w1 := w.log (Event.list user query)
  match srv.list w1.mailbox user query with
  | Except.error err => (some ("unable to retrieve spam: " ++ err), w1)
  | Except.ok spam =>
    let ids := collectIds spam.messages (Slice.mk [])
    let batchDelReq : BatchDeleteMessagesRequest := { ids := ids }
    let w2 := w1.log (Event.batchDelete user batchDelReq)
    match srv.batchDelete w2.mailbox user batchDelReq with
    | (mailbox, some err) =>
      (some ("failed to perform deletion: " ++ err), { w2 with mailbox := mailbox })
    | (mailbox, none) => (none, { w2 with mailbox := mailbox })

/-! ## A paginated mail service -/

/-- Whether an event is a batch-delete request. -/
def Event.isBatchDelete : Event → Bool
  | Event.batchDelete _ _ => true
  | _ => false

/-- Whether a message carries the system label of the Spam folder. -/
def Message.isSpam (m : Message) : Bool :=
  m.labelIds.contains "SPAM"

/-- The messages of a mailbox a query selects; `label:Spam` selects the
messages of the Spam folder. -/
def matching (query : String) (mailbox : List Message) : List Message :=
  if query = "label:Spam" then mailbox.filter Message.isSpam else []

/-- The list endpoint of a mail service that pages its results, at most
`pageSize` messages a page: a request without a page token is answered with the
first page and, when more messages match, a token for the next page. -/
def pagedList (pageSize : Nat) (mailbox : List Message) (_user : String) (query : String) :
    Except GoError ListMessagesResponse :=
  let found := matching query mailbox
  Except.ok
    { messages := if found.isEmpty then Slice.nil else Slice.mk (found.take pageSize)
      nextPageToken := if pageSize < found.length then "page-2" else "" }

/-- The batch-delete endpoint: every message whose identifier is in the request
is removed, in one request. -/
def removeAll (mailbox : List Message) (_user : String) (req : BatchDeleteMessagesRequest) :
    List Message × Option GoError :=
  (mailbox.filter (fun m => !(req.ids.elems.contains m.id)), none)

/-- A mail service with a paginated list endpoint and a batch-delete endpoint,
over a mailbox that is a list of messages. -/
def pagedService (pageSize : Nat) : Service (List Message) :=
  { list := pagedList pageSize, batchDelete := removeAll }

/-! ## Credentials -/

/-- The answers of the libraries and of the operating system the program calls,
one deterministic answer per call.

* `openFileErr path`: the error of
  `os.OpenFile(path, O_WRONLY|O_CREATE|O_TRUNC, 0600)`, `none` when it opens;
* `writeErr path bytes`: the error of writing `bytes` to the open file together
  with the content the file is left with, `none` when the write is complete;
* `jsonEncode tok`: the bytes `json.Encoder.Encode` produces for the token, or
  its error;
* `jsonDecode bytes tok`: `json.Decoder.Decode` reading `bytes` into `tok`: the
  token afterwards and the error;
* `configFromJSON bytes scope`: `google.ConfigFromJSON`;
* `authCodeURL`, `exchange`: the methods of `oauth2.Config`;
* `scan`: what `fmt.Scan` reads from the terminal;
* `newService client`: the error of `gmail.NewService` for that HTTP client. -/
structure Env where
  openFileErr : String → Option GoError
  writeErr : String → String → Option (GoError × String)
  jsonEncode : Token → Except GoError String
  jsonDecode : String → Token → Token × Option GoError
  configFromJSON : String → String → Except GoError Config
  authCodeURL : Config → String
  scan : Except GoError String
  exchange : Config → String → Except GoError Token
  newService : Option HttpClient → Option GoError

/-- The call `log.Fatalf(msg)`: the message goes to the terminal and the process
exits with status 1. -/
def fatalf {σ α : Type} (msg : String) (w : World σ) : Run α × World σ :=
  (Run.exit 1, w.log (Event.fatal msg))

/-- The function `tokenFromFile`: the returned token pointer (`none` for nil) and error. -/
def tokenFromFile {σ : Type} (env : Env) (file : String) (w : World σ) :
    (Option Token × Option GoError) × World σ :=
  let w1 := w.log (Event.openRead file)
  match w1.fs file with
  | none => ((none, some ("open " ++ file ++ ": no such file or directory")), w1)
  | some bytes =>
    let w2 := w1.log (Event.jsonDecode bytes)
    let decoded := env.jsonDecode bytes Token.zero
    ((some decoded.1, decoded.2), w2)

/-- The function `saveToken`.  When the file cannot be opened the error is only
printed, and the encoder then writes to a nil file, which fails. -/
def saveToken {σ : Type} (env : Env) (path : String) (token : Token) (w : World σ) :
    Option GoError × World σ :=
  let w1 := w.log (Event.print ("Saving OAuth token to :" ++ path ++ "\n"))
  let w2 := w1.log (Event.openWrite path)
  match env.openFileErr path with
  | some err =>
    let w3 := w2.log (Event.print ("Unable cache OAuth token: " ++ err))
    let w4 := w3.log (Event.jsonEncode token)
    match env.jsonEncode token with
    | Except.error e => (some e, w4)
    | Except.ok _ => (some "invalid argument", w4)
  | none =>
    let w3 : World σ := { w2 with fs := w2.fs.set path "" }
    let w4 := w3.log (Event.jsonEncode token)
    match env.jsonEncode token with
    | Except.error e => (some e, w4)
    | Except.ok bytes =>
      let w5 := w4.log (Event.write path bytes)
      match env.writeErr path bytes with
      | some (e, left) => (some e, { w5 with fs := w5.fs.set path left })
      | none => (none, { w5 with fs := w5.fs.set path bytes })

/-- The function `tokenFromWeb`: the interactive authorization-code exchange. -/
def tokenFromWeb {σ : Type} (env : Env) (config : Config) (w : World σ) :
    Run Token × World σ :=
  let authURL := env.authCodeURL config
  let w1 := w.log (Event.print
    ("Go to the following link in your browser then type the authorization code: \n"
      ++ authURL ++ "\n"))
  let w2 := w1.log Event.scan
  match env.scan with
  | Except.error err => fatalf ("Unable to read authorization code: " ++ err) w2
  | Except.ok authCode =>
    let w3 := w2.log (Event.exchange authCode)
    match env.exchange config authCode with
    | Except.error err => fatalf ("Unable to retrieve token from the web: " ++ err) w3
    | Except.ok tok => (Run.ret tok, w3)

/-- The method `config.Client(ctx, tok)`. -/
def configClient {σ : Type} (config : Config) (tok : Option Token) (w : World σ) :
    HttpClient × World σ :=
  ({ config := config, token := tok }, w.log (Event.configClient tok))

/-- The function `getClient`: the returned client pointer is `none` for nil. -/
def getClient {σ : Type} (env : Env) (tokPath : String) (config : Config) (w : World σ) :
    Run (Option HttpClient) × World σ :=
  match tokenFromFile env tokPath w with
  | ((tok, none), w1) =>
    let built := configClient config tok w1
    (Run.ret (some built.1), built.2)
  | ((_, some _), w1) =>
    match tokenFromWeb env config w1 with
    | (Run.exit code, w2) => (Run.exit code, w2)
    | (Run.ret tok, w2) =>
      match saveToken env tokPath tok w2 with
      | (some _, w3) => (Run.ret none, w3)
      | (none, w3) =>
        let built := configClient config (some tok) w3
        (Run.ret (some built.1), built.2)

/-! ## main -/

/-- The call `pflag.StringP(name, shorthand, value, usage)` registers a flag with
the command line of the `pflag` package and returns its variable.  The variable
holds the default `value` until `pflag.Parse` runs; `main` never calls it, so
this is what `*creds` and `*tokPath` read. -/
def pflagStringP (_name _shorthand value _usage : String) : String :=
  value

/-- The call `flag.Parse()` of the standard library `flag` package on the
arguments of the process, for the flag set `main` leaves it with: no flag is
registered there.  Only the first argument matters.  Parsing stops (`none`) at
the end of the arguments, at a first argument that is not a flag (shorter than
two bytes, or not starting with `-`), or at `--`.  Any other first argument is a
flag, with one or two leading dashes and its name ending at the first `=`; its
syntax is bad or its name is undefined, and the package exits the process with
status 2 (status 0 for the names `h` and `help`). -/
def flagParse (args : List String) : Option Nat :=
  match args with
  | [] => none
  | s :: _ =>
    match s.toList with
    | c0 :: c1 :: rest =>
      if c0 != '-' then none
      else if c1 = '-' && rest = [] then none
      else
        let name := if c1 = '-' then rest else c1 :: rest
        match name with
        | [] => some 2
        | n0 :: _ =>
          if n0 = '-' || n0 = '=' then some 2
          else
            let key := String.mk (name.takeWhile (fun c => c != '='))
            if key = "help" || key = "h" then some 0 else some 2
    | _ => none

/-- The constant `gmail.MailGoogleComScope`. -/
def mailGoogleComScope : String := "https://mail.google.com/"

/-- The function `main`, run on the arguments of the process. -/
def main {σ : Type} (env : Env) (srv : Service σ) (args : List String) (w : World σ) :
    Run Unit × World σ :=
  let creds := pflagStringP "credentials" "c" "credentials.json" "File path to credentials file"
  let tokPath := pflagStringP "token" "t" "token.json" "File path to token file"
  let w0 := w.log (Event.flagParse args)
  match flagParse args with
  | some code => (Run.exit code, w0)
  | none =>
    let w1 := w0.log (Event.readFile creds)
    match w1.fs creds with
    | none =>
      fatalf ("Unable to read secret file: open " ++ creds ++ ": no such file or directory") w1
    | some b =>
      let w2 := w1.log (Event.configFromJSON b mailGoogleComScope)
      match env.configFromJSON b mailGoogleComScope with
      | Except.error err =>
        fatalf ("Unable to parse client secret file to config: " ++ err) w2
      | Except.ok cfg =>
        match getClient env tokPath cfg w2 with
        | (Run.exit code, w3) => (Run.exit code, w3)
        | (Run.ret client, w3) =>
          let w4 := w3.log (Event.newService client)
          match env.newService client with
          | some err => fatalf ("Unable to retrieve Gmail client: " ++ err) w4
          | none =>
            match deleteSpam srv w4 with
            | (some err, w5) =>
              fatalf ("Unable to delete contents of spam folder: " ++ err) w5
            | (none, w5) => (Run.ret (), w5)

/-! ## What the command line asks for -/

/-- The value a command line gives to a string flag with a long name and a
one-letter shorthand, as the flag's description promises it: the argument after
`--name` or `-c`, or the part after `=` in `--name=value`; the default when the
flag does not occur. -/
def flagValue (name shorthand value : String) : List String → String
  | [] => value
  | [a] => if a.startsWith ("--" ++ name ++ "=") then a.drop (name.length + 3) else value
  | a :: b :: rest =>
    if a = "--" ++ name || a = "-" ++ shorthand then b
    else if a.startsWith ("--" ++ name ++ "=") then a.drop (name.length + 3)
    else flagValue name shorthand value (b :: rest)

/-- The path of an `os.ReadFile` call. -/
def Event.readPath : Event → Option String
  | Event.readFile path => some path
  | _ => none

/-- The path of an `os.Open` call, which only `tokenFromFile` makes. -/
def Event.openedPath : Event → Option String
  | Event.openRead path => some path
  | _ => none

/-- The paths of the files read with `os.ReadFile`, in order. -/
def readPaths (trace : List Event) : List String :=
  trace.filterMap Event.readPath

/-- The paths `tokenFromFile` was called with, in order. -/
def openedPaths (trace : List Event) : List String :=
  trace.filterMap Event.openedPath

/-- The files a trace reads and the files it opens: the pair of `readPaths` and
`openedPaths`. -/
def touched (trace : List Event) : List String × List String :=
  (readPaths trace, openedPaths trace)

/-! ## Concrete worlds used as instances -/

/-- A mailbox with three spam messages and one message of the inbox. -/
def mailbox4 : List Message :=
  [ { id := "m1", labelIds := ["SPAM"] }, { id := "m2", labelIds := ["INBOX"] },
    { id := "m3", labelIds := ["SPAM"] }, { id := "m4", labelIds := ["SPAM"] } ]

/-- A world with no file, the mailbox `mailbox4` and no call made yet. -/
def world4 : World (List Message) :=
  { fs := fun _ => none, mailbox := mailbox4, trace := [] }

/-- A mail service whose list request fails and whose batch delete would empty
the mailbox. -/
def downService : Service (List Message) :=
  { list := fun _ _ _ => Except.error "backend unavailable"
    batchDelete := fun _ _ _ => ([], none) }

/-- A mail service that lists no message and whose batch delete fails. -/
def emptyService : Service (List Message) :=
  { list := fun _ _ _ => Except.ok { messages := Slice.nil, nextPageToken := "" }
    batchDelete := fun mailbox _ _ => (mailbox, some "forbidden") }

/-- A token as the authorization server hands it out. -/
def sampleToken : Token :=
  { accessToken := ascii "ya29.a0AfB", tokenType := ascii "Bearer",
    refreshToken := ascii "1//0gLq",
    expiry := 1700000000 }

/-- The line the JSON encoder writes for `sampleToken`. -/
def sampleJSON : String :=
  "\x7b\"access_token\":\"ya29.a0AfB\",\"token_type\":\"Bearer\"," ++
  "\"refresh_token\":\"1//0gLq\",\"expiry\":\"2023-11-14T22:13:20Z\"\x7d\n"

/-- An environment in which the user types an authorization code, the server
exchanges it for `sampleToken`, the JSON codec knows the text of that token, and
opening the token file for writing fails with `openErr` (`none`: it opens), and
`gmail.NewService` answers a nil HTTP client with `nilClientErr` (`none`: it
builds a service from the default credentials of the machine). -/
def sampleEnv (openErr : Option GoError) (nilClientErr : Option GoError) : Env :=
  { openFileErr := fun _ => openErr
    writeErr := fun _ _ => none
    jsonEncode := fun tok =>
      if tok = sampleToken then Except.ok sampleJSON
      else Except.error "json: unsupported value"
    jsonDecode := fun bytes tok =>
      if bytes = sampleJSON then (sampleToken, none) else (tok, some "unexpected end of JSON input")
    configFromJSON := fun bytes scope => Except.ok { credentials := bytes, scope := scope }
    authCodeURL := fun _ => "https://accounts.google.com/o/oauth2/auth"
    scan := Except.ok "4/0AfJohX"
    exchange := fun _ _ => Except.ok sampleToken
    newService := fun client => if client.isNone then nilClientErr else none }

/-- The configuration read from the sample credentials file. -/
def sampleConfig : Config :=
  { credentials := "installed", scope := mailGoogleComScope }

/-- A first run: the credentials file exists, no token has been cached yet. -/
def firstRunWorld : World (List Message) :=
  { fs := fun p => if p = "credentials.json" then some "installed" else none
    mailbox := mailbox4
    trace := [] }

/-- A later run: the token file holds the cached token. -/
def laterRunWorld : World (List Message) :=
  { fs := fun p =>
      if p = "credentials.json" then some "installed"
      else if p = "token.json" then some sampleJSON else none
    mailbox := mailbox4
    trace := [] }

/-- A token whose access token is the three bytes `a`, `0xff`, `b`; the byte
`0xff` is not valid UTF-8. -/
def rawToken : Token :=
  { accessToken := [0x61, 0xff, 0x62], tokenType := ascii "Bearer", refreshToken := [],
    expiry := 1700000000 }

/-- The line `json.Encoder.Encode` writes for `rawToken`, without error: the
invalid byte is written as the escape of U+FFFD, and the empty refresh token is
left out. -/
def rawJSON : String :=
  "\x7b\"access_token\":\"a\\ufffdb\",\"token_type\":\"Bearer\"," ++
  "\"expiry\":\"2023-11-14T22:13:20Z\"\x7d\n"

/-- The token `json.Decoder.Decode` reads from `rawJSON`: the access token
holds the UTF-8 encoding `ef bf bd` of U+FFFD where `rawToken` has `ff`. -/
def coercedToken : Token :=
  { accessToken := [0x61, 0xef, 0xbf, 0xbd, 0x62], tokenType := ascii "Bearer",
    refreshToken := [], expiry := 1700000000 }

/-- The environment `sampleEnv none none` with the answers `encoding/json`
gives for `rawToken` added to its codec. -/
def coercingEnv : Env :=
  { sampleEnv none none with
    jsonEncode := fun tok =>
      if tok = rawToken then Except.ok rawJSON else (sampleEnv none none).jsonEncode tok
    jsonDecode := fun bytes tok =>
      if bytes = rawJSON then (coercedToken, none)
      else (sampleEnv none none).jsonDecode bytes tok }

/-- The JSON codec of the environment loses nothing of this token: decoding
the bytes it encodes the token to, into a zero token, gives the token back
without error. -/
def CodecRoundTrips (env : Env) (tok : Token) : Prop :=
  ∀ bytes, env.jsonEncode tok = Except.ok bytes → env.jsonDecode bytes Token.zero = (tok, none)

/-! ## Lemmas on deleteSpam -/

theorem foldl_append_ids (ms : List Message) (acc : List String) :
    ms.foldl (fun (a : Slice String) s => a.append s.id) (Slice.mk acc)
      = Slice.mk (acc ++ ms.map Message.id) := by
  induction ms generalizing acc with
  | nil => simp
  | cons m rest ih =>
    simp only [List.foldl_cons, List.map_cons]
    have h : (Slice.mk acc).append m.id = Slice.mk (acc ++ [m.id]) := rfl
    rw [h, ih]
    simp

theorem collectIds_fresh (messages : Slice Message) :
    collectIds messages (Slice.mk []) = Slice.mk (messages.elems.map Message.id) := by
  unfold collectIds
  rw [foldl_append_ids]
  simp

theorem deleteSpam_list_error {σ : Type} (srv : Service σ) (w : World σ) (err : GoError)
    (h : srv.list w.mailbox "me" "label:Spam" = Except.error err) :
    deleteSpam srv w
      = (some ("unable to retrieve spam: " ++ err), w.log (Event.list "me" "label:Spam")) := by
  have h1 : srv.list (w.log (Event.list "me" "label:Spam")).mailbox "me" "label:Spam"
      = Except.error err := h
  simp only [deleteSpam, h1]

theorem deleteSpam_list_ok {σ : Type} (srv : Service σ) (w : World σ)
    (spam : ListMessagesResponse)
    (h : srv.list w.mailbox "me" "label:Spam" = Except.ok spam) :
    deleteSpam srv w =
      ((srv.batchDelete w.mailbox "me"
          { ids := Slice.mk (spam.messages.elems.map Message.id) }).2.map
            (fun err => "failed to perform deletion: " ++ err),
        { fs := w.fs
          mailbox := (srv.batchDelete w.mailbox "me"
            { ids := Slice.mk (spam.messages.elems.map Message.id) }).1
          trace := w.trace ++ [Event.list "me" "label:Spam",
            Event.batchDelete "me"
              { ids := Slice.mk (spam.messages.elems.map Message.id) }] }) := by
  have h1 : srv.list (w.log (Event.list "me" "label:Spam")).mailbox "me" "label:Spam"
      = Except.ok spam := h
  simp only [deleteSpam, h1, collectIds_fresh]
  simp only [World.log]
  rcases hb : srv.batchDelete w.mailbox "me"
      { ids := Slice.mk (spam.messages.elems.map Message.id) } with ⟨mb, e⟩
  cases e <;> simp

/-- Against the paginated service, when the spam of the mailbox fits on the
first page, `deleteSpam` returns nil and no spam message is left. -/
theorem deleteSpam_single_page_clears (pageSize : Nat) (w : World (List Message))
    (hfits : (w.mailbox.filter Message.isSpam).length ≤ pageSize) :
    (deleteSpam (pagedService pageSize) w).1 = none
      ∧ (deleteSpam (pagedService pageSize) w).2.mailbox.filter Message.isSpam = [] := by
  have hfound : matching "label:Spam" w.mailbox = w.mailbox.filter Message.isSpam := by
    simp [matching]
  have hlist : (pagedService pageSize).list w.mailbox "me" "label:Spam"
      = Except.ok
          { messages := if (w.mailbox.filter Message.isSpam).isEmpty then Slice.nil
              else Slice.mk ((w.mailbox.filter Message.isSpam).take pageSize)
            nextPageToken := if pageSize < (w.mailbox.filter Message.isSpam).length
              then "page-2" else "" } := by
    simp only [pagedService, pagedList, hfound]
  have helems : (if (w.mailbox.filter Message.isSpam).isEmpty then Slice.nil
        else Slice.mk ((w.mailbox.filter Message.isSpam).take pageSize)).elems
      = w.mailbox.filter Message.isSpam := by
    cases hf : w.mailbox.filter Message.isSpam with
    | nil => simp [Slice.elems]
    | cons m rest =>
      rw [hf] at hfits
      simp only [List.isEmpty_cons, Bool.false_eq_true, if_false, Slice.elems]
      exact List.take_of_length_le hfits
  rw [deleteSpam_list_ok (pagedService pageSize) w _ hlist]
  simp only [helems]
  refine ⟨by simp [pagedService, removeAll], ?_⟩
  simp only [pagedService, removeAll, Slice.elems]
  rw [List.filter_eq_nil_iff]
  intro m hm hspam
  rw [List.mem_filter] at hm
  obtain ⟨hmem, hnot⟩ := hm
  simp at hnot
  exact hnot m hmem hspam rfl

/-! ## deleteSpam: the claims -/

/-- C1, evaluated where it fails: against a mail service whose list endpoint
pages its results two at a time and a mailbox with three spam messages, the
single list request of `deleteSpam` is answered with the first page and a token
for the next one; `deleteSpam` deletes the two messages of that page, returns
nil, and the spam message `m4` of the second page is still in the mailbox. -/
theorem deleteSpam_leaves_later_pages :
    pagedList 2 mailbox4 "me" "label:Spam"
        = Except.ok
            { messages := Slice.mk [{ id := "m1", labelIds := ["SPAM"] },
                                    { id := "m3", labelIds := ["SPAM"] }]
              nextPageToken := "page-2" }
      ∧ (deleteSpam (pagedService 2) world4).1 = none
      ∧ (deleteSpam (pagedService 2) world4).2.trace
          = [Event.list "me" "label:Spam",
             Event.batchDelete "me" { ids := Slice.mk ["m1", "m3"] }]
      ∧ (deleteSpam (pagedService 2) world4).2.mailbox
          = [{ id := "m2", labelIds := ["INBOX"] }, { id := "m4", labelIds := ["SPAM"] }]
      ∧ ((deleteSpam (pagedService 2) world4).2.mailbox.filter Message.isSpam).length = 1 := by
  refine ⟨?_, ?_, ?_, ?_, ?_⟩ <;> decide

/-- C4: when the list request succeeds, `deleteSpam` issues exactly one
batch-delete request, and the identifier list it carries is the list of the
`Id` fields of the messages of the response, in the same order and of the same
length. -/
theorem deleteSpam_sends_response_ids {σ : Type} (srv : Service σ) (w : World σ)
    (spam : ListMessagesResponse)
    (h : srv.list w.mailbox "me" "label:Spam" = Except.ok spam) :
    (deleteSpam srv w).2.trace
        = w.trace ++ [Event.list "me" "label:Spam",
            Event.batchDelete "me" { ids := Slice.mk (spam.messages.elems.map Message.id) }]
      ∧ (deleteSpam srv w).2.trace.filter Event.isBatchDelete
        = w.trace.filter Event.isBatchDelete
            ++ [Event.batchDelete "me"
                  { ids := Slice.mk (spam.messages.elems.map Message.id) }]
      ∧ (spam.messages.elems.map Message.id).length = spam.messages.elems.length := by
  rw [deleteSpam_list_ok srv w spam h]
  simp [Event.isBatchDelete]

theorem deleteSpam_sends_response_ids_witness :
    (pagedService 2).list world4.mailbox "me" "label:Spam"
        = Except.ok
            { messages := Slice.mk [{ id := "m1", labelIds := ["SPAM"] },
                                    { id := "m3", labelIds := ["SPAM"] }]
              nextPageToken := "page-2" }
      ∧ (deleteSpam (pagedService 2) world4).2.trace
        = world4.trace ++ [Event.list "me" "label:Spam",
            Event.batchDelete "me" { ids := Slice.mk ["m1", "m3"] }] :=
  ⟨by decide,
    (deleteSpam_sends_response_ids (pagedService 2) world4
      { messages := Slice.mk [{ id := "m1", labelIds := ["SPAM"] },
                              { id := "m3", labelIds := ["SPAM"] }]
        nextPageToken := "page-2" } (by decide)).1⟩

/-- C6: `deleteSpam` returns a non-nil error if and only if the list request
fails or the batch-delete request (issued with the identifiers collected from
the list response) fails, and returns nil exactly when both succeed. -/
theorem deleteSpam_error_iff {σ : Type} (srv : Service σ) (w : World σ) :
    ((deleteSpam srv w).1 ≠ none ↔
        (∃ err, srv.list w.mailbox "me" "label:Spam" = Except.error err)
        ∨ (∃ spam err, srv.list w.mailbox "me" "label:Spam" = Except.ok spam
            ∧ (srv.batchDelete w.mailbox "me"
                { ids := collectIds spam.messages (Slice.mk []) }).2 = some err))
      ∧ ((deleteSpam srv w).1 = none ↔
        ∃ spam, srv.list w.mailbox "me" "label:Spam" = Except.ok spam
          ∧ (srv.batchDelete w.mailbox "me"
              { ids := collectIds spam.messages (Slice.mk []) }).2 = none) := by
  cases hl : srv.list w.mailbox "me" "label:Spam" with
  | error err =>
    rw [deleteSpam_list_error srv w err hl]
    simp
  | ok spam =>
    rw [deleteSpam_list_ok srv w spam hl]
    simp only [collectIds_fresh]
    cases hb : (srv.batchDelete w.mailbox "me"
        { ids := Slice.mk (spam.messages.elems.map Message.id) }).2 with
    | none => simp [hb]
    | some e => simp [hb]

/-- C8: if the list request of `deleteSpam` fails, the only request issued is
the list request: no batch-delete request is added to the trace, the mailbox
and the files are unchanged, and the list error is returned. -/
theorem deleteSpam_list_failure_deletes_nothing {σ : Type} (srv : Service σ) (w : World σ)
    (err : GoError) (h : srv.list w.mailbox "me" "label:Spam" = Except.error err) :
    (deleteSpam srv w).2.trace = w.trace ++ [Event.list "me" "label:Spam"]
      ∧ (deleteSpam srv w).2.trace.filter Event.isBatchDelete
          = w.trace.filter Event.isBatchDelete
      ∧ (deleteSpam srv w).2.mailbox = w.mailbox
      ∧ (deleteSpam srv w).2.fs = w.fs
      ∧ (deleteSpam srv w).1 = some ("unable to retrieve spam: " ++ err) := by
  rw [deleteSpam_list_error srv w err h]
  simp [World.log, Event.isBatchDelete]

theorem deleteSpam_list_failure_deletes_nothing_witness :
    downService.list world4.mailbox "me" "label:Spam" = Except.error "backend unavailable"
      ∧ (deleteSpam downService world4).2.trace = world4.trace ++ [Event.list "me" "label:Spam"]
      ∧ (deleteSpam downService world4).2.mailbox = world4.mailbox :=
  ⟨rfl,
    (deleteSpam_list_failure_deletes_nothing downService world4 "backend unavailable" rfl).1,
    (deleteSpam_list_failure_deletes_nothing downService world4 "backend unavailable" rfl).2.2.1⟩

/-- C9: when the list response holds no message (a nil or an empty slice),
`deleteSpam` still issues exactly one batch-delete request; the identifier list
it carries is empty and not nil, and the value `deleteSpam` returns is decided
by the outcome of that request: nil when it succeeds, its wrapped error when it
fails. -/
theorem deleteSpam_empty_response_still_deletes {σ : Type} (srv : Service σ) (w : World σ)
    (spam : ListMessagesResponse)
    (h : srv.list w.mailbox "me" "label:Spam" = Except.ok spam)
    (hempty : spam.messages.elems = []) :
    (deleteSpam srv w).2.trace
        = w.trace ++ [Event.list "me" "label:Spam",
            Event.batchDelete "me" { ids := Slice.mk [] }]
      ∧ (deleteSpam srv w).2.trace.filter Event.isBatchDelete
        = w.trace.filter Event.isBatchDelete
            ++ [Event.batchDelete "me" { ids := Slice.mk [] }]
      ∧ (Slice.mk ([] : List String)).isNil = false
      ∧ (deleteSpam srv w).1
        = (srv.batchDelete w.mailbox "me" { ids := Slice.mk [] }).2.map
            (fun err => "failed to perform deletion: " ++ err) := by
  rw [deleteSpam_list_ok srv w spam h, hempty]
  simp [Event.isBatchDelete, Slice.isNil]

theorem deleteSpam_empty_response_still_deletes_witness :
    emptyService.list world4.mailbox "me" "label:Spam"
        = Except.ok { messages := Slice.nil, nextPageToken := "" }
      ∧ (deleteSpam emptyService world4).2.trace
        = world4.trace ++ [Event.list "me" "label:Spam",
            Event.batchDelete "me" { ids := Slice.mk [] }]
      ∧ (deleteSpam emptyService world4).1 = some "failed to perform deletion: forbidden" :=
  ⟨rfl,
    (deleteSpam_empty_response_still_deletes emptyService world4 _ rfl rfl).1,
    (deleteSpam_empty_response_still_deletes emptyService world4 _ rfl rfl).2.2.2⟩

/-! ## Lemmas on the credential functions -/

theorem saveToken_success {σ : Type} (env : Env) (path : String) (tok : Token) (w : World σ)
    (h : (saveToken env path tok w).1 = none) :
    ∃ bytes, env.jsonEncode tok = Except.ok bytes
      ∧ (saveToken env path tok w).2.fs = (w.fs.set path "").set path bytes
      ∧ (saveToken env path tok w).2.mailbox = w.mailbox
      ∧ (saveToken env path tok w).2.trace
          = w.trace ++ [Event.print ("Saving OAuth token to :" ++ path ++ "\n"),
              Event.openWrite path, Event.jsonEncode tok, Event.write path bytes] := by
  unfold saveToken at h ⊢
  cases ho : env.openFileErr path with
  | some err =>
    simp only [ho] at h
    cases he : env.jsonEncode tok <;> simp [he] at h
  | none =>
    simp only [ho] at h ⊢
    cases he : env.jsonEncode tok with
    | error e => simp [he] at h
    | ok bytes =>
      simp only [he] at h ⊢
      cases hw : env.writeErr path bytes with
      | some p => simp [hw] at h
      | none =>
        refine ⟨bytes, rfl, ?_, ?_, ?_⟩ <;> simp [World.log]

theorem saveToken_trace {σ : Type} (env : Env) (path : String) (tok : Token) (w : World σ) :
    ∃ added, (saveToken env path tok w).2.trace
        = w.trace ++ Event.print ("Saving OAuth token to :" ++ path ++ "\n")
            :: Event.openWrite path :: added
      ∧ Event.jsonEncode tok ∈ added := by
  unfold saveToken
  simp only [World.log]
  cases ho : env.openFileErr path with
  | some err =>
    cases he : env.jsonEncode tok <;> simp
  | none =>
    cases he : env.jsonEncode tok with
    | error e => simp
    | ok bytes =>
      cases hw : env.writeErr path bytes with
      | none => simp [hw]
      | some p =>
        obtain ⟨e, left⟩ := p
        simp [hw]

theorem tokenFromFile_no_error {σ : Type} (env : Env) (file : String) (w : World σ)
    (h : (tokenFromFile env file w).1.2 = none) :
    ∃ bytes, w.fs file = some bytes
      ∧ (env.jsonDecode bytes Token.zero).2 = none
      ∧ tokenFromFile env file w
          = ((some (env.jsonDecode bytes Token.zero).1, none),
              { fs := w.fs, mailbox := w.mailbox
                trace := w.trace ++ [Event.openRead file, Event.jsonDecode bytes] }) := by
  unfold tokenFromFile at h ⊢
  simp only [World.log] at h ⊢
  cases hf : w.fs file with
  | none => simp [hf] at h
  | some bytes =>
    simp only [hf] at h ⊢
    exact ⟨bytes, rfl, h, by simp [h]⟩

theorem tokenFromFile_fs {σ : Type} (env : Env) (file : String) (w : World σ) :
    (tokenFromFile env file w).2.fs = w.fs := by
  unfold tokenFromFile
  have hfs : (w.log (Event.openRead file)).fs file = w.fs file := rfl
  simp only [hfs]
  cases w.fs file <;> rfl

theorem saveToken_frame {σ : Type} (env : Env) (path : String) (tok : Token)
    (w w2 : World σ) (hfs : w.fs = w2.fs) :
    (saveToken env path tok w).1 = (saveToken env path tok w2).1
      ∧ (saveToken env path tok w).2.fs = (saveToken env path tok w2).2.fs := by
  unfold saveToken
  simp only [World.log]
  cases ho : env.openFileErr path with
  | some err =>
    simp only
    cases he : env.jsonEncode tok <;> simp [hfs]
  | none =>
    simp only
    cases he : env.jsonEncode tok with
    | error e => simp [hfs]
    | ok bytes =>
      simp only
      cases hw : env.writeErr path bytes with
      | none => simp [hfs]
      | some p =>
        obtain ⟨e, left⟩ := p
        simp [hfs]

theorem sampleEnv_roundTrips (openErr nilClientErr : Option GoError) :
    CodecRoundTrips (sampleEnv openErr nilClientErr) sampleToken := by
  intro bytes h
  have hb : bytes = sampleJSON := by
    simp only [sampleEnv, if_true] at h
    exact (Except.ok.inj h).symm
  subst hb
  simp [sampleEnv]

/-! ## getClient, saveToken, tokenFromFile: the claims -/

/-- C2: if `tokenFromFile(tokPath)` returns no error, the token file exists and
`getClient` returns the HTTP client built by `config.Client` from exactly the
token decoded from that file; the only calls it makes are opening the file,
decoding it and building the client (no prompt, no scan, no code exchange, no
opening or writing of the token file by `saveToken`), and the files are left
unchanged. -/
theorem getClient_reuses_cached_token {σ : Type} (env : Env) (tokPath : String)
    (config : Config) (w : World σ)
    (h : (tokenFromFile env tokPath w).1.2 = none) :
    ∃ bytes, w.fs tokPath = some bytes
      ∧ (tokenFromFile env tokPath w).1.1 = some (env.jsonDecode bytes Token.zero).1
      ∧ (getClient env tokPath config w).1
          = Run.ret (some { config := config, token := some (env.jsonDecode bytes Token.zero).1 })
      ∧ (getClient env tokPath config w).2.trace
          = w.trace ++ [Event.openRead tokPath, Event.jsonDecode bytes,
              Event.configClient (some (env.jsonDecode bytes Token.zero).1)]
      ∧ (getClient env tokPath config w).2.fs = w.fs := by
  obtain ⟨bytes, hfs, _, heq⟩ := tokenFromFile_no_error env tokPath w h
  refine ⟨bytes, hfs, ?_, ?_, ?_, ?_⟩
  · rw [heq]
  · simp only [getClient, heq, configClient]
  · simp [getClient, heq, configClient, World.log]
  · simp [getClient, heq, configClient, World.log]

theorem getClient_reuses_cached_token_witness :
    (tokenFromFile (sampleEnv none none) "token.json" laterRunWorld).1.2 = none
      ∧ ∃ bytes, laterRunWorld.fs "token.json" = some bytes
        ∧ (tokenFromFile (sampleEnv none none) "token.json" laterRunWorld).1.1
            = some ((sampleEnv none none).jsonDecode bytes Token.zero).1
        ∧ (getClient (sampleEnv none none) "token.json" sampleConfig laterRunWorld).1
            = Run.ret (some { config := sampleConfig
                              token := some ((sampleEnv none none).jsonDecode bytes Token.zero).1 })
        ∧ (getClient (sampleEnv none none) "token.json" sampleConfig laterRunWorld).2.trace
            = laterRunWorld.trace ++ [Event.openRead "token.json", Event.jsonDecode bytes,
                Event.configClient (some ((sampleEnv none none).jsonDecode bytes Token.zero).1)]
        ∧ (getClient (sampleEnv none none) "token.json" sampleConfig laterRunWorld).2.fs
            = laterRunWorld.fs :=
  ⟨by decide,
    getClient_reuses_cached_token (sampleEnv none none) "token.json" sampleConfig laterRunWorld
      (by decide)⟩

/-- C3: if `tokenFromFile(tokPath)` returns an error, `getClient` obtains the
token by the interactive authorization-code exchange: it prints the prompt with
the authorization URL, scans a code from the terminal and sends that code for
exchange.  When the scan or the exchange fails the process exits with status 1
on a fatal message and no file is touched.  When the exchange answers with a
token, `getClient` calls `saveToken` with `tokPath` and that same token (the
file at `tokPath` is opened for writing and that token is handed to the
encoder), and the files are left as `saveToken` leaves them; when the save
succeeds the file at `tokPath` holds the encoding of that token and the
returned client is `config.Client` of that same token, and when it fails the
returned client is nil. -/
theorem getClient_fetches_and_saves {σ : Type} (env : Env) (tokPath : String)
    (config : Config) (w : World σ)
    (h : (tokenFromFile env tokPath w).1.2 ≠ none) :
    (∀ err, env.scan = Except.error err →
        (getClient env tokPath config w).1 = Run.exit 1
          ∧ (getClient env tokPath config w).2.trace
              = (tokenFromFile env tokPath w).2.trace ++
                [Event.print
                  ("Go to the following link in your browser then type the authorization code: \n"
                    ++ env.authCodeURL config ++ "\n"),
                 Event.scan,
                 Event.fatal ("Unable to read authorization code: " ++ err)]
          ∧ (getClient env tokPath config w).2.fs = w.fs)
      ∧ (∀ code err, env.scan = Except.ok code → env.exchange config code = Except.error err →
        (getClient env tokPath config w).1 = Run.exit 1
          ∧ (getClient env tokPath config w).2.trace
              = (tokenFromFile env tokPath w).2.trace ++
                [Event.print
                  ("Go to the following link in your browser then type the authorization code: \n"
                    ++ env.authCodeURL config ++ "\n"),
                 Event.scan,
                 Event.exchange code,
                 Event.fatal ("Unable to retrieve token from the web: " ++ err)]
          ∧ (getClient env tokPath config w).2.fs = w.fs)
      ∧ (∀ code tok, env.scan = Except.ok code → env.exchange config code = Except.ok tok →
        (∃ added, (getClient env tokPath config w).2.trace
              = (tokenFromFile env tokPath w).2.trace ++
                [Event.print
                  ("Go to the following link in your browser then type the authorization code: \n"
                    ++ env.authCodeURL config ++ "\n"),
                 Event.scan,
                 Event.exchange code,
                 Event.print ("Saving OAuth token to :" ++ tokPath ++ "\n"),
                 Event.openWrite tokPath] ++ added
            ∧ Event.jsonEncode tok ∈ added)
          ∧ (getClient env tokPath config w).2.fs = (saveToken env tokPath tok w).2.fs
          ∧ ((saveToken env tokPath tok w).1 = none →
              (getClient env tokPath config w).1
                  = Run.ret (some { config := config, token := some tok })
                ∧ ∃ bytes, env.jsonEncode tok = Except.ok bytes
                  ∧ (getClient env tokPath config w).2.fs tokPath = some bytes
                  ∧ (getClient env tokPath config w).2.trace
                    = (tokenFromFile env tokPath w).2.trace ++
                      [Event.print
                        ("Go to the following link in your browser then type the authorization code: \n"
                          ++ env.authCodeURL config ++ "\n"),
                       Event.scan,
                       Event.exchange code,
                       Event.print ("Saving OAuth token to :" ++ tokPath ++ "\n"),
                       Event.openWrite tokPath,
                       Event.jsonEncode tok,
                       Event.write tokPath bytes,
                       Event.configClient (some tok)])
          ∧ ((saveToken env tokPath tok w).1 ≠ none →
              (getClient env tokPath config w).1 = Run.ret none)) := by
  have hfs1 := tokenFromFile_fs env tokPath w
  rcases hf : tokenFromFile env tokPath w with ⟨⟨t, e⟩, w1⟩
  rw [hf] at h hfs1
  simp only at hfs1
  cases e with
  | none => exact absurd rfl h
  | some err0 =>
    refine ⟨?_, ?_, ?_⟩
    · intro err hscan
      simp [getClient, hf, tokenFromWeb, hscan, fatalf, World.log, hfs1]
    · intro code err hscan hex
      simp [getClient, hf, tokenFromWeb, hscan, hex, fatalf, World.log, hfs1]
    · intro code tok hscan hex
      have hweb : tokenFromWeb env config w1
          = (Run.ret tok,
              ((w1.log (Event.print
                ("Go to the following link in your browser then type the authorization code: \n"
                  ++ env.authCodeURL config ++ "\n"))).log Event.scan).log
                (Event.exchange code)) := by
        simp only [tokenFromWeb, hscan, hex]
      generalize hw2 : ((w1.log (Event.print
          ("Go to the following link in your browser then type the authorization code: \n"
            ++ env.authCodeURL config ++ "\n"))).log Event.scan).log
          (Event.exchange code) = w2 at hweb
      have htr2 : w2.trace = w1.trace ++
          [Event.print
            ("Go to the following link in your browser then type the authorization code: \n"
              ++ env.authCodeURL config ++ "\n"),
           Event.scan, Event.exchange code] := by
        rw [← hw2]
        simp [World.log]
      have hfs2 : w2.fs = w.fs := by
        rw [← hw2]
        exact hfs1
      obtain ⟨hres, hfsame⟩ := saveToken_frame env tokPath tok w2 w hfs2
      obtain ⟨added, hadded, hmem⟩ := saveToken_trace env tokPath tok w2
      rw [← hres, ← hfsame]
      rcases hs : saveToken env tokPath tok w2 with ⟨r, w3⟩
      rw [hs] at hadded
      simp only at hadded
      cases r with
      | some e2 =>
        refine ⟨⟨added, ?_, hmem⟩, ?_, ?_, ?_⟩
        · simp only [getClient, hf, hweb, hs]
          rw [hadded, htr2]
          simp
        · simp only [getClient, hf, hweb, hs]
        · intro hnone
          exact absurd hnone (by simp)
        · intro _
          simp only [getClient, hf, hweb, hs]
      | none =>
        obtain ⟨bytes, henc, hfs, _, htr⟩ :=
          saveToken_success env tokPath tok w2 (by rw [hs])
        rw [hs] at hfs htr
        simp only at hfs htr
        refine ⟨⟨added ++ [Event.configClient (some tok)], ?_, ?_⟩, ?_, ?_, ?_⟩
        · simp only [getClient, hf, hweb, hs, configClient, World.log]
          rw [hadded, htr2]
          simp
        · exact List.mem_append_left _ hmem
        · simp [getClient, hf, hweb, hs, configClient, World.log]
        · intro _
          refine ⟨?_, bytes, henc, ?_, ?_⟩
          · simp only [getClient, hf, hweb, hs, configClient]
          · simp only [getClient, hf, hweb, hs, configClient, World.log]
            rw [hfs]
            simp [FS.set]
          · simp only [getClient, hf, hweb, hs, configClient, World.log]
            rw [htr, htr2]
            simp
        · intro hne
          exact absurd rfl hne

theorem getClient_fetches_and_saves_witness :
    (tokenFromFile (sampleEnv none none) "token.json" firstRunWorld).1.2 ≠ none
      ∧ (sampleEnv none none).scan = Except.ok "4/0AfJohX"
      ∧ (sampleEnv none none).exchange sampleConfig "4/0AfJohX" = Except.ok sampleToken
      ∧ (saveToken (sampleEnv none none) "token.json" sampleToken firstRunWorld).1 = none
      ∧ (getClient (sampleEnv none none) "token.json" sampleConfig firstRunWorld).1
          = Run.ret (some { config := sampleConfig, token := some sampleToken }) :=
  ⟨by decide, rfl, rfl, by decide,
    ((((getClient_fetches_and_saves (sampleEnv none none) "token.json" sampleConfig
      firstRunWorld (by decide)).2.2 "4/0AfJohX" sampleToken rfl rfl).2.2.1) (by decide)).1⟩

/-- C10 as stated fails: for the token `rawToken`, whose access token holds the
byte `0xff`, `json.Encoder.Encode` writes the escape of U+FFFD and returns no
error, so `saveToken` returns nil; `tokenFromFile` then returns no error and
`coercedToken`, whose access token differs from the one that was saved. -/
theorem saveToken_tokenFromFile_coerces_invalid_bytes :
    (saveToken coercingEnv "token.json" rawToken firstRunWorld).1 = none
      ∧ (saveToken coercingEnv "token.json" rawToken firstRunWorld).2.fs "token.json"
          = some rawJSON
      ∧ (tokenFromFile coercingEnv "token.json"
          (saveToken coercingEnv "token.json" rawToken firstRunWorld).2).1
        = (some coercedToken, none)
      ∧ (tokenFromFile coercingEnv "token.json"
          (saveToken coercingEnv "token.json" rawToken firstRunWorld).2).1
        ≠ (some rawToken, none)
      ∧ coercedToken.accessToken ≠ rawToken.accessToken := by
  refine ⟨?_, ?_, ?_, ?_, ?_⟩ <;> decide

/-- C10, amended: for every path and every token of which the JSON codec loses
nothing (decoding the bytes it encodes the token to gives the token back without
error), if `saveToken(path, tok)` returns nil then, in every later world in
which the file at `path` still holds what `saveToken` left there,
`tokenFromFile(path)` returns no error and a token equal to `tok` (access
token, token type, refresh token and expiry). -/
theorem saveToken_tokenFromFile_roundtrip {σ : Type} (env : Env) (path : String) (tok : Token)
    (w later : World σ)
    (hcodec : CodecRoundTrips env tok)
    (hsave : (saveToken env path tok w).1 = none)
    (hkept : later.fs path = (saveToken env path tok w).2.fs path) :
    (tokenFromFile env path later).1 = (some tok, none) := by
  obtain ⟨bytes, henc, hfs, _, _⟩ := saveToken_success env path tok w hsave
  have hread : later.fs path = some bytes := by
    rw [hkept, hfs]
    simp [FS.set]
  have hlog : (later.log (Event.openRead path)).fs path = some bytes := hread
  simp only [tokenFromFile, hlog, hcodec bytes henc]

theorem saveToken_tokenFromFile_roundtrip_witness :
    (saveToken (sampleEnv none none) "token.json" sampleToken firstRunWorld).1 = none
      ∧ (tokenFromFile (sampleEnv none none) "token.json"
          (saveToken (sampleEnv none none) "token.json" sampleToken firstRunWorld).2).1
        = (some sampleToken, none) :=
  ⟨by decide,
    saveToken_tokenFromFile_roundtrip (sampleEnv none none) "token.json" sampleToken
      firstRunWorld _ (sampleEnv_roundTrips none none) (by decide) rfl⟩

/-! ## Which files a run touches -/

theorem touched_log {σ : Type} (w : World σ) (e : Event) :
    touched (w.log e).trace
      = ((touched w.trace).1 ++ (e.readPath).toList, (touched w.trace).2 ++ (e.openedPath).toList) := by
  simp only [touched, readPaths, openedPaths, World.log, List.filterMap_append]
  cases e <;> simp [Event.readPath, Event.openedPath]

theorem tokenFromFile_touched {σ : Type} (env : Env) (file : String) (w : World σ) :
    touched (tokenFromFile env file w).2.trace
      = ((touched w.trace).1, (touched w.trace).2 ++ [file]) := by
  unfold tokenFromFile
  have hfs : (w.log (Event.openRead file)).fs file = w.fs file := rfl
  simp only [hfs]
  cases w.fs file <;> simp [touched_log, Event.readPath, Event.openedPath]

theorem tokenFromWeb_touched {σ : Type} (env : Env) (config : Config) (w : World σ) :
    touched (tokenFromWeb env config w).2.trace = touched w.trace := by
  unfold tokenFromWeb fatalf
  cases hsc : env.scan with
  | error err => simp [touched_log, Event.readPath, Event.openedPath]
  | ok code =>
    simp only
    cases hex : env.exchange config code <;>
      simp [touched_log, Event.readPath, Event.openedPath]

theorem saveToken_touched {σ : Type} (env : Env) (path : String) (tok : Token) (w : World σ) :
    touched (saveToken env path tok w).2.trace = touched w.trace := by
  unfold saveToken
  cases ho : env.openFileErr path with
  | some err =>
    simp only
    cases he : env.jsonEncode tok <;> simp [touched_log, Event.readPath, Event.openedPath]
  | none =>
    simp only
    cases he : env.jsonEncode tok with
    | error e =>
      simp [touched, World.log, readPaths, openedPaths, Event.readPath, Event.openedPath]
    | ok bytes =>
      simp only
      cases hw : env.writeErr path bytes with
      | none =>
        simp [touched, World.log, readPaths, openedPaths, Event.readPath, Event.openedPath]
      | some p =>
        obtain ⟨e, left⟩ := p
        simp [touched, World.log, readPaths, openedPaths, Event.readPath, Event.openedPath]

theorem deleteSpam_touched {σ : Type} (srv : Service σ) (w : World σ) :
    touched (deleteSpam srv w).2.trace = touched w.trace := by
  cases hl : srv.list w.mailbox "me" "label:Spam" with
  | error err =>
    rw [deleteSpam_list_error srv w err hl]
    simp [touched_log, Event.readPath, Event.openedPath]
  | ok spam =>
    rw [deleteSpam_list_ok srv w spam hl]
    simp [touched, readPaths, openedPaths, Event.readPath, Event.openedPath]

theorem getClient_touched {σ : Type} (env : Env) (tokPath : String) (config : Config)
    (w : World σ) :
    touched (getClient env tokPath config w).2.trace
      = ((touched w.trace).1, (touched w.trace).2 ++ [tokPath]) := by
  have hfile := tokenFromFile_touched env tokPath w
  unfold getClient
  rcases hf : tokenFromFile env tokPath w with ⟨⟨t, e⟩, w1⟩
  rw [hf] at hfile
  simp only at hfile
  cases e with
  | none => simp [configClient, touched_log, Event.readPath, Event.openedPath, hfile]
  | some err =>
    have hweb := tokenFromWeb_touched env config w1
    rcases hw : tokenFromWeb env config w1 with ⟨r, w2⟩
    rw [hw] at hweb
    simp only at hweb
    cases r with
    | exit code =>
      simp only [hw]
      rw [hweb, hfile]
    | ret tok =>
      have hsave := saveToken_touched env tokPath tok w2
      rcases hs : saveToken env tokPath tok w2 with ⟨r3, w3⟩
      rw [hs] at hsave
      simp only at hsave
      cases r3 with
      | some e3 =>
        simp only [hw, hs]
        rw [hsave, hweb, hfile]
      | none =>
        simp only [hw, hs, configClient, touched_log, Event.readPath, Event.openedPath]
        rw [hsave, hweb, hfile]
        simp

theorem main_touched {σ : Type} (env : Env) (srv : Service σ) (args : List String)
    (w : World σ) :
    touched (main env srv args w).2.trace = touched w.trace
      ∨ touched (main env srv args w).2.trace
          = ((touched w.trace).1 ++ ["credentials.json"], (touched w.trace).2)
      ∨ touched (main env srv args w).2.trace
          = ((touched w.trace).1 ++ ["credentials.json"], (touched w.trace).2 ++ ["token.json"]) := by
  unfold main pflagStringP fatalf
  simp only
  cases hp : flagParse args with
  | some code =>
    left
    simp [touched_log, Event.readPath, Event.openedPath]
  | none =>
    right
    simp only
    have hfs : ((w.log (Event.flagParse args)).log (Event.readFile "credentials.json")).fs
        "credentials.json" = w.fs "credentials.json" := rfl
    rw [hfs]
    cases hc : w.fs "credentials.json" with
    | none =>
      left
      simp [touched_log, Event.readPath, Event.openedPath]
    | some b =>
      simp only
      cases hcfg : env.configFromJSON b mailGoogleComScope with
      | error err =>
        left
        simp [touched_log, Event.readPath, Event.openedPath]
      | ok cfg =>
        right
        simp only
        have hclient := getClient_touched env "token.json" cfg
          (((w.log (Event.flagParse args)).log (Event.readFile "credentials.json")).log
            (Event.configFromJSON b mailGoogleComScope))
        rcases hg : getClient env "token.json" cfg
          (((w.log (Event.flagParse args)).log (Event.readFile "credentials.json")).log
            (Event.configFromJSON b mailGoogleComScope)) with ⟨r, w3⟩
        rw [hg] at hclient
        simp only [touched_log, Event.readPath, Event.openedPath, Option.toList,
          List.append_nil] at hclient
        cases r with
        | exit code => simpa using hclient
        | ret client =>
          simp only
          cases hn : env.newService client with
          | some err =>
            simp only [touched_log, Event.readPath, Event.openedPath, Option.toList,
              List.append_nil]
            simpa using hclient
          | none =>
            simp only
            have hdel := deleteSpam_touched srv (w3.log (Event.newService client))
            rcases hd : deleteSpam srv (w3.log (Event.newService client)) with ⟨r5, w5⟩
            rw [hd] at hdel
            simp only [touched_log, Event.readPath, Event.openedPath, Option.toList,
              List.append_nil] at hdel
            cases r5 with
            | some err =>
              simp only [touched_log, Event.readPath, Event.openedPath, Option.toList,
                List.append_nil]
              rw [hdel]
              simpa using hclient
            | none =>
              simp only
              rw [hdel]
              simpa using hclient

theorem deleteSpam_trace_grows {σ : Type} (srv : Service σ) (w : World σ) (e : Event)
    (h : e ∈ w.trace) : e ∈ (deleteSpam srv w).2.trace := by
  cases hl : srv.list w.mailbox "me" "label:Spam" with
  | error err =>
    rw [deleteSpam_list_error srv w err hl]
    simp [World.log, h]
  | ok spam =>
    rw [deleteSpam_list_ok srv w spam hl]
    simp [h]

/-- Whenever `getClient` returns a nil client, `main` goes on to call
`gmail.NewService` with that nil client. -/
theorem main_nil_client_reaches_newService {σ : Type} (env : Env) (srv : Service σ)
    (args : List String) (w w3 : World σ) (b : String) (cfg : Config)
    (hflag : flagParse args = none)
    (hcreds : w.fs "credentials.json" = some b)
    (hcfg : env.configFromJSON b mailGoogleComScope = Except.ok cfg)
    (hclient : getClient env "token.json" cfg
        (((w.log (Event.flagParse args)).log (Event.readFile "credentials.json")).log
          (Event.configFromJSON b mailGoogleComScope)) = (Run.ret none, w3)) :
    Event.newService none ∈ (main env srv args w).2.trace := by
  have hfs : ((w.log (Event.flagParse args)).log (Event.readFile "credentials.json")).fs
      "credentials.json" = some b := hcreds
  simp only [main, pflagStringP, hflag, hfs, hcfg, hclient, fatalf]
  cases hn : env.newService none with
  | some err => simp [World.log]
  | none =>
    simp only
    have hmem : Event.newService none ∈ (w3.log (Event.newService none)).trace := by
      simp [World.log]
    have hgrow := deleteSpam_trace_grows srv (w3.log (Event.newService none)) _ hmem
    rcases hd : deleteSpam srv (w3.log (Event.newService none)) with ⟨r5, w5⟩
    rw [hd] at hgrow
    cases r5 with
    | some err =>
      simp only [World.log]
      exact List.mem_append_left _ hgrow
    | none => exact hgrow

/-! ## main: the claims -/

/-- C5, evaluated where it fails: on a first run (no cached token) the user
completes the authorization-code exchange, and `saveToken` returns an error
because the token file cannot be opened for writing.  `getClient` returns nil
and `main` goes on: it calls `gmail.NewService` with the nil client.  When that
call succeeds the run lists and deletes the spam and ends without any fatal
error; when it fails the run stops on the error of `gmail.NewService`, not on
the one of `saveToken`. -/
theorem main_continues_after_failed_save :
    (tokenFromFile (sampleEnv (some "permission denied") none) "token.json" firstRunWorld).1.2
        ≠ none
      ∧ (saveToken (sampleEnv (some "permission denied") none) "token.json" sampleToken
          firstRunWorld).1 = some "invalid argument"
      ∧ (main (sampleEnv (some "permission denied") none) (pagedService 100) []
          firstRunWorld).1 = Run.ret ()
      ∧ (main (sampleEnv (some "permission denied") none) (pagedService 100) []
          firstRunWorld).2.trace
        = [Event.flagParse [],
           Event.readFile "credentials.json",
           Event.configFromJSON "installed" "https://mail.google.com/",
           Event.openRead "token.json",
           Event.print ("Go to the following link in your browser then type the " ++
             "authorization code: \nhttps://accounts.google.com/o/oauth2/auth\n"),
           Event.scan,
           Event.exchange "4/0AfJohX",
           Event.print "Saving OAuth token to :token.json\n",
           Event.openWrite "token.json",
           Event.print "Unable cache OAuth token: permission denied",
           Event.jsonEncode sampleToken,
           Event.newService none,
           Event.list "me" "label:Spam",
           Event.batchDelete "me" { ids := Slice.mk ["m1", "m3", "m4"] }]
      ∧ (main (sampleEnv (some "permission denied") none) (pagedService 100) []
          firstRunWorld).2.mailbox = [{ id := "m2", labelIds := ["INBOX"] }]
      ∧ (main (sampleEnv (some "permission denied") (some "could not find default credentials"))
          (pagedService 100) [] firstRunWorld).1 = Run.exit 1
      ∧ (main (sampleEnv (some "permission denied") (some "could not find default credentials"))
          (pagedService 100) [] firstRunWorld).2.trace.drop 11
        = [Event.newService none,
           Event.fatal "Unable to retrieve Gmail client: could not find default credentials"] := by
  refine ⟨?_, ?_, ?_, ?_, ?_, ?_, ?_⟩ <;> decide

/-- C7, evaluated where it fails.  The command line `-c my.json` asks for the
credentials file `my.json` and `--token tok.json` for the token file
`tok.json`, yet in every environment `main` exits with status 2 inside
`flag.Parse`, before any file is read: the standard `flag` package knows
neither flag.  On every command line the only file `main` can read is
`credentials.json` and the only token path it can pass on is `token.json`; on
`x -c my.json`, which gets past `flag.Parse`, it reads `credentials.json`. -/
theorem main_never_consults_flags {σ : Type} (env : Env) (srv : Service σ) (w : World σ) :
    flagValue "credentials" "c" "credentials.json" ["-c", "my.json"] = "my.json"
      ∧ main env srv ["-c", "my.json"] w
          = (Run.exit 2, w.log (Event.flagParse ["-c", "my.json"]))
      ∧ flagValue "token" "t" "token.json" ["--token", "tok.json"] = "tok.json"
      ∧ main env srv ["--token", "tok.json"] w
          = (Run.exit 2, w.log (Event.flagParse ["--token", "tok.json"]))
      ∧ (∀ args, readPaths (main env srv args w).2.trace = readPaths w.trace
          ∨ readPaths (main env srv args w).2.trace = readPaths w.trace ++ ["credentials.json"])
      ∧ (∀ args, openedPaths (main env srv args w).2.trace = openedPaths w.trace
          ∨ openedPaths (main env srv args w).2.trace = openedPaths w.trace ++ ["token.json"])
      ∧ flagValue "credentials" "c" "credentials.json" ["x", "-c", "my.json"] = "my.json"
      ∧ readPaths (main (sampleEnv none none) (pagedService 100) ["x", "-c", "my.json"]
          laterRunWorld).2.trace = ["credentials.json"] := by
  have h1 : flagParse ["-c", "my.json"] = some 2 := by decide
  have h2 : flagParse ["--token", "tok.json"] = some 2 := by decide
  refine ⟨by decide, ?_, by decide, ?_, ?_, ?_, by decide, by decide⟩
  · simp only [main, h1]
  · simp only [main, h2]
  · intro args
    rcases main_touched env srv args w with h | h | h
    · exact Or.inl (congrArg Prod.fst h)
    · exact Or.inr (congrArg Prod.fst h)
    · exact Or.inr (congrArg Prod.fst h)
  · intro args
    rcases main_touched env srv args w with h | h | h
    · exact Or.inl (congrArg Prod.snd h)
    · exact Or.inl (congrArg Prod.snd h)
    · exact Or.inr (congrArg Prod.snd h)

end TidyMailbox
